import Mathlib

/-!
Shallow embedding of the SNMP tunnel lease manager of this repository:
`backend/tunnel_manager.py` (TunnelManager, LeaseInfo, TunnelLease),
`backend/services/tunnels.py` (TunnelService, the tracked reservation
facade) and the port-list validation in `backend/config.py`.

Python floats for wall-clock times and TTLs are modelled as integers (the
claims below only use ordering and addition of times);
the external `snmpsubsystem.ProxyController` collaborator is modelled at
its specified boundary (start / close / alive), and the OS socket-bind
probe is modelled as an oracle `avail : Nat → Bool` supplied per call.
Python exceptions are modelled by returning the post-mutation state
together with an `Except` result, since a raising call in Python keeps
every mutation it performed before the raise.
-/

namespace STWeb

/-- Embeds `LeaseInfo` (tunnel_manager.py lines 26-49). -/
structure LeaseInfo where
  owner_id : String
  owner_kind : String
  port : Nat
  created_at : ℤ
  expires_at : ℤ
  ttl : ℤ
  device_ip : String
  username : String
  last_heartbeat : ℤ
deriving Repr, DecidableEq

/-- Boundary model of the external `snmpsubsystem.ProxyController`
collaborator: `start` binds the forwarding process to a port and makes it
alive, `close` stops it.  `startCount` / `closeCount` count the calls made
by the manager, so that "never starts a second proxy process" and
"close() is invoked" are observable. -/
structure Controller where
  alive : Bool
  listenPort : Nat
  startCount : Nat
  closeCount : Nat
deriving Repr, DecidableEq

def Controller.start (c : Controller) (port : Nat) : Controller :=
  { c with alive := true, listenPort := port, startCount := c.startCount + 1 }

def Controller.close (c : Controller) : Controller :=
  { c with alive := false, closeCount := c.closeCount + 1 }

/-- The mutable state of a `TunnelManager` (tunnel_manager.py lines
103-111): the controller, the lease registry `_leases` (a Python dict,
modelled as an insertion-ordered association list), `_active_port` and
`_current_target`. -/
structure TMState where
  controller : Controller
  leases : List (String × LeaseInfo)
  active_port : Option Nat
  current_target : Option (String × String × String)
deriving Repr, DecidableEq

/-- The constructor-time configuration of a `TunnelManager`
(tunnel_manager.py lines 94-107). -/
structure TMConfig where
  listen_host : String
  ports : List Nat
  default_ttl : ℤ
deriving Repr, DecidableEq

/-- The three error classes of tunnel_manager.py lines 14-23. -/
inductive TMError where
  | managerError (msg : String)
  | portsBusy
  | configurationError
deriving Repr, DecidableEq

deriving instance DecidableEq for Except

/-- Embeds `self._leases.get(owner_id)`: first binding of the key. -/
def getLease : List (String × LeaseInfo) → String → Option LeaseInfo
  | [], _ => none
  | (k, v) :: rest, o => if k = o then some v else getLease rest o

/-- Embeds `self._leases[owner_id] = info`: replace the binding in place if the
key is present, append it otherwise (Python dict assignment keeps the
insertion position of an existing key). -/
def setLease : List (String × LeaseInfo) → String → LeaseInfo → List (String × LeaseInfo)
  | [], o, v => [(o, v)]
  | (k, v') :: rest, o, v => if k = o then (o, v) :: rest else (k, v') :: setLease rest o v

/-- Embeds `self._leases.pop(owner_id, None)` (removal part; keys are unique in a
dict, so dropping every binding of the key is the same removal). -/
def popLease (ls : List (String × LeaseInfo)) (o : String) : List (String × LeaseInfo) :=
  ls.filter (fun kv => kv.1 ≠ o)

/-- Embeds `TunnelManager._cleanup_expired_locked` (lines 259-266): drop every
lease with `expires_at <= now`; if something was dropped and the registry
is now empty, close the proxy and reset port and target. -/
def cleanupLocked (st : TMState) (now : ℤ) : TMState :=
  let remaining := st.leases.filter (fun kv => decide (now < kv.2.expires_at))
  if st.leases ≠ [] ∧ remaining = [] then
    { st with leases := [], controller := st.controller.close,
              active_port := none, current_target := none }
  else
    { st with leases := remaining }

/-- Embeds `TunnelManager._select_port` (lines 151-159), with the socket probe
`_port_available` abstracted as the oracle `avail`.  Each candidate is
tested in order: it is returned if it equals the active port, or else if
the bind probe succeeds. -/
def selectPort (ports : List Nat) (avail : Nat → Bool) (active : Option Nat) :
    Except TMError Nat :=
  match ports with
  | [] => .error .portsBusy
  | p :: rest =>
    if active = some p then .ok p
    else if avail p then .ok p
    else selectPort rest avail active

/-- Embeds `TunnelManager._ensure_controller` (lines 161-182).  Note that in the
alive branch Python assigns `self._active_port = port` before the target
check, so that mutation survives a `ConfigurationError` raise. -/
def ensureController (cfg : TMConfig) (avail : Nat → Bool)
    (ip username password : String) (st : TMState) : TMState × Except TMError Nat :=
  if st.controller.alive then
    let port := st.controller.listenPort
    let st1 := { st with active_port := some port }
    match st1.current_target with
    | some t =>
      if t ≠ (ip, username, password) then (st1, .error .configurationError)
      else ({ st1 with current_target := some (ip, username, password) }, .ok port)
    | none => ({ st1 with current_target := some (ip, username, password) }, .ok port)
  else
    match selectPort cfg.ports avail st.active_port with
    | .error e => (st, .error e)
    | .ok port =>
      ({ st with controller := st.controller.start port,
                 active_port := some port,
                 current_target := some (ip, username, password) }, .ok port)

/-- Embeds `ttl = float(ttl) if ttl else self._default_ttl` (line 197): a missing
or falsy (zero) ttl becomes the manager-wide default. -/
def ttlOrDefault (cfg : TMConfig) (ttlArg : Option ℤ) : ℤ :=
  match ttlArg with
  | some t => if t = 0 then cfg.default_ttl else t
  | none => cfg.default_ttl

/-- Embeds `TunnelManager.lease` (lines 185-223).  Returns the post-call state
and either the owner id of the granted lease handle or the raised error. -/
def lease (cfg : TMConfig) (avail : Nat → Bool) (now : ℤ)
    (owner_id owner_kind ip username password : String) (ttlArg : Option ℤ)
    (st : TMState) : TMState × Except TMError String :=
  if owner_id = "" then (st, .error (.managerError "owner_id is required"))
  else
    let ttl := ttlOrDefault cfg ttlArg
    let st := cleanupLocked st now
    match getLease st.leases owner_id with
    | some info =>
      let info1 := { info with expires_at := now + ttl, ttl := ttl,
                               last_heartbeat := now, device_ip := ip,
                               username := username }
      ({ st with leases := setLease st.leases owner_id info1 }, .ok owner_id)
    | none =>
      match ensureController cfg avail ip username password st with
      | (st1, .error e) => (st1, .error e)
      | (st1, .ok port) =>
        let info : LeaseInfo :=
          { owner_id := owner_id, owner_kind := owner_kind, port := port,
            created_at := now, expires_at := now + ttl, ttl := ttl,
            device_ip := ip, username := username, last_heartbeat := now }
        ({ st1 with leases := setLease st1.leases owner_id info }, .ok owner_id)

/-- Embeds `TunnelManager.heartbeat` (lines 225-235): renew an existing lease,
silently do nothing for an unknown owner. -/
def heartbeat (cfg : TMConfig) (now : ℤ) (owner_id : String) (ttlArg : Option ℤ)
    (st : TMState) : TMState :=
  let ttlValue : Option ℤ :=
    match ttlArg with
    | some t => if t = 0 then none else some t
    | none => none
  match getLease st.leases owner_id with
  | none => st
  | some info =>
    let info1 :=
      match ttlValue with
      | some tv => { info with ttl := tv }
      | none => info
    let info2 := { info1 with
      expires_at := now + (if info1.ttl = 0 then cfg.default_ttl else info1.ttl),
      last_heartbeat := now }
    { st with leases := setLease st.leases owner_id info2 }

/-- Embeds `TunnelManager.release` (lines 237-245): pop the lease if present;
when the registry becomes empty, close the proxy and reset port and
target. -/
def release (owner_id : String) (st : TMState) : TMState :=
  match getLease st.leases owner_id with
  | none => st
  | some _ =>
    let remaining := popLease st.leases owner_id
    if remaining = [] then
      { st with leases := [], controller := st.controller.close,
                active_port := none, current_target := none }
    else
      { st with leases := remaining }

/-- Embeds `TunnelManager._normalise_ports` (lines 116-126): `None` becomes
`[1161]`; an explicit list is de-duplicated preserving order and must be
non-empty.  No range check is performed here. -/
def normalisePorts (ports : Option (List Nat)) : Except TMError (List Nat) :=
  match ports with
  | none => .ok [1161]
  | some ps =>
    let result := ps.foldl (fun acc p => if p ∈ acc then acc else acc ++ [p]) []
    if result = [] then .error (.managerError "no ports configured for TunnelManager")
    else .ok result

/-- Python `str.strip()`: drop leading and trailing whitespace. -/
def stripChars (s : String) : String :=
  String.mk (((s.data.dropWhile Char.isWhitespace).reverse.dropWhile
    Char.isWhitespace).reverse)

/-- Python `int(s)` for an all-digit string. -/
def digitsToNat (s : String) : Nat :=
  s.data.foldl (fun n c => n * 10 + (c.toNat - 48)) 0

/-- One element of the heterogeneous list handed to `_parse_ports` in
config.py: a string or an integer. -/
inductive PortItem where
  | str (s : String)
  | int (n : Int)
deriving Repr, DecidableEq

/-- Loop body of `_parse_ports` (config.py lines 95-113): strings are
stripped (blank ones skipped) and must be all digits; values must lie in
1..65535; duplicates are dropped. -/
def parsePortsLoop : List PortItem → List Int → Except String (List Int)
  | [], acc => .ok acc
  | item :: rest, acc =>
    match item with
    | .str s =>
      let s1 := stripChars s
      if s1 = "" then parsePortsLoop rest acc
      else if ¬ (s1.data.all Char.isDigit) then .error "invalid port value"
      else
        let n : Int := (digitsToNat s1 : Nat)
        if n ≤ 0 ∨ 65535 < n then .error "port out of range"
        else if n ∈ acc then parsePortsLoop rest acc
        else parsePortsLoop rest (acc ++ [n])
    | .int n =>
      if n ≤ 0 ∨ 65535 < n then .error "port out of range"
      else if n ∈ acc then parsePortsLoop rest acc
      else parsePortsLoop rest (acc ++ [n])

/-- Embeds `_parse_ports` (config.py lines 95-113): the accumulated list must be
non-empty. -/
def parsePorts (items : List PortItem) : Except String (List Int) :=
  match parsePortsLoop items [] with
  | .error e => .error e
  | .ok ports => if ports = [] then .error "port list cannot be empty" else .ok ports

/-- A `TunnelLease` handle (tunnel_manager.py lines 52-88): it remembers
its owner id and a per-handle released flag. -/
structure TunnelLeaseH where
  owner_id : String
  released : Bool
deriving Repr, DecidableEq

/-- Embeds `TunnelLease.release` (lines 75-79): idempotent per handle; the first
call delegates to the manager's `release`. -/
def TunnelLeaseH.releaseH (h : TunnelLeaseH) (st : TMState) : TunnelLeaseH × TMState :=
  if h.released then (h, st)
  else ({ h with released := true }, release h.owner_id st)

/-- The state of a `TunnelService` (services/tunnels.py lines 27-39): the
manager plus the `_tracked` dict from tracking key to lease handle. -/
structure SvcState where
  mgr : TMState
  tracked : List (String × TunnelLeaseH)
deriving Repr, DecidableEq

/-- Embeds `self._tracked.pop(owner_id, None)`. -/
def popTracked (ls : List (String × TunnelLeaseH)) (o : String) :
    Option TunnelLeaseH × List (String × TunnelLeaseH) :=
  match ls with
  | [] => (none, [])
  | (k, v) :: rest =>
    if k = o then (some v, rest)
    else
      let (found, rest1) := popTracked rest o
      (found, (k, v) :: rest1)

/-- Embeds `TunnelService.reserve` (services/tunnels.py lines 42-67): lease from
the manager; when `track` is set, pop any previously tracked handle under
the key, release it, then install the new handle under the key. -/
def reserve (cfg : TMConfig) (avail : Nat → Bool) (now : ℤ)
    (owner_id owner_kind ip username password : String) (ttlArg : Option ℤ)
    (track : Bool) (sv : SvcState) : SvcState × Except TMError TunnelLeaseH :=
  match lease cfg avail now owner_id owner_kind ip username password ttlArg sv.mgr with
  | (st1, .error e) => ({ sv with mgr := st1 }, .error e)
  | (st1, .ok oid) =>
    let h : TunnelLeaseH := { owner_id := oid, released := false }
    if track then
      match popTracked sv.tracked owner_id with
      | (some prev, rest) =>
        let (_, st2) := prev.releaseH st1
        ({ mgr := st2, tracked := rest ++ [(owner_id, h)] }, .ok h)
      | (none, rest) =>
        ({ mgr := st1, tracked := rest ++ [(owner_id, h)] }, .ok h)
    else ({ sv with mgr := st1 }, .ok h)

/-- The manager state of a freshly constructed `TunnelManager` with a
fresh (not yet started) controller. -/
def initState : TMState :=
  { controller := { alive := false, listenPort := 0, startCount := 0, closeCount := 0 },
    leases := [], active_port := none, current_target := none }

/-- The configuration the backend actually uses: default listen host,
`DEFAULT_TUNNEL_PORTS = [1161, 21161, 31161]` from config.py, default ttl
600 s. -/
def defaultCfg : TMConfig :=
  { listen_host := "127.0.0.1", ports := [1161, 21161, 31161], default_ttl := 600 }

/-- One external call into the manager: the four operations the claims
range over.  A `lease` step carries the bind-probe oracle observed during
that call. -/
inductive TMOp where
  | leaseOp (now : ℤ) (owner_id owner_kind ip username password : String)
      (ttlArg : Option ℤ) (avail : Nat → Bool)
  | heartbeatOp (now : ℤ) (owner_id : String) (ttlArg : Option ℤ)
  | releaseOp (owner_id : String)
  | sweepOp (now : ℤ)

/-- Apply one operation to the manager state (keeping the state an
erroring `lease` call leaves behind, as Python does). -/
def applyOp (cfg : TMConfig) (op : TMOp) (st : TMState) : TMState :=
  match op with
  | .leaseOp now o k ip u pw ttlArg avail => (lease cfg avail now o k ip u pw ttlArg st).1
  | .heartbeatOp now o ttlArg => heartbeat cfg now o ttlArg st
  | .releaseOp o => release o st
  | .sweepOp now => cleanupLocked st now

/-- Apply a sequence of operations in order. -/
def applySeq (cfg : TMConfig) (ops : List TMOp) (st : TMState) : TMState :=
  ops.foldl (fun s op => applyOp cfg op s) st

/-- A `lease` step renews consistently when, if its owner already holds a
(surviving) lease, the call passes that lease's own device ip and
username again. -/
def renewalConsistentB (cfg : TMConfig) (op : TMOp) (st : TMState) : Bool :=
  match op with
  | .leaseOp now o _ ip u _ _ _ =>
    match getLease (cleanupLocked st now).leases o with
    | some info => info.device_ip == ip && info.username == u
    | none => true
  | _ => true

/-- Every `lease` step of the sequence renews consistently in the state
it executes in. -/
def GoodSeqB (cfg : TMConfig) : List TMOp → TMState → Bool
  | [], _ => true
  | op :: rest, st => renewalConsistentB cfg op st && GoodSeqB cfg rest (applyOp cfg op st)

/-- The single-target invariant: when the registry is non-empty, the
proxy is alive, the active port is the controller's bound port, a current
target is recorded, and every lease carries that port and that target's
device ip and username. -/
def Inv (st : TMState) : Prop :=
  st.leases = [] ∨
  (st.controller.alive = true ∧
   st.active_port = some st.controller.listenPort ∧
   ∃ ip user pw, st.current_target = some (ip, user, pw) ∧
     ∀ kv ∈ st.leases, kv.2.port = st.controller.listenPort ∧
       kv.2.device_ip = ip ∧ kv.2.username = user)

/-! ### Association-list lemmas -/

theorem getLease_mem {ls : List (String × LeaseInfo)} {o : String} {v : LeaseInfo}
    (h : getLease ls o = some v) : (o, v) ∈ ls := by
  induction ls with
  | nil => simp [getLease] at h
  | cons kv rest ih =>
    obtain ⟨k, w⟩ := kv
    by_cases hk : k = o
    · subst hk
      simp [getLease] at h
      simp [h]
    · simp [getLease, hk] at h
      exact List.mem_cons_of_mem _ (ih h)

theorem mem_setLease {ls : List (String × LeaseInfo)} {o : String} {v : LeaseInfo}
    {kv : String × LeaseInfo} (h : kv ∈ setLease ls o v) : kv ∈ ls ∨ kv = (o, v) := by
  induction ls with
  | nil => simp [setLease] at h; simp [h]
  | cons kw rest ih =>
    obtain ⟨k, w⟩ := kw
    by_cases hk : k = o
    · subst hk
      simp [setLease] at h
      rcases h with h | h
      · right; simp [h]
      · left; exact List.mem_cons_of_mem _ h
    · simp [setLease, hk] at h
      rcases h with h | h
      · left; simp [h]
      · rcases ih h with h1 | h1
        · left; exact List.mem_cons_of_mem _ h1
        · right; exact h1

theorem getLease_setLease_self (ls : List (String × LeaseInfo)) (o : String) (v : LeaseInfo) :
    getLease (setLease ls o v) o = some v := by
  induction ls with
  | nil => simp [setLease, getLease]
  | cons kw rest ih =>
    obtain ⟨k, w⟩ := kw
    by_cases hk : k = o
    · subst hk; simp [setLease, getLease]
    · simp [setLease, getLease, hk, ih]

theorem map_fst_setLease {ls : List (String × LeaseInfo)} {o : String} {w : LeaseInfo}
    (v : LeaseInfo) (h : getLease ls o = some w) :
    (setLease ls o v).map Prod.fst = ls.map Prod.fst := by
  induction ls with
  | nil => simp [getLease] at h
  | cons kw rest ih =>
    obtain ⟨k, w'⟩ := kw
    by_cases hk : k = o
    · subst hk; simp [setLease]
    · simp [getLease, hk] at h
      simp [setLease, hk, ih h]

theorem setLease_ne_nil (ls : List (String × LeaseInfo)) (o : String) (v : LeaseInfo) :
    setLease ls o v ≠ [] := by
  cases ls with
  | nil => simp [setLease]
  | cons kw rest =>
    obtain ⟨k, w⟩ := kw
    by_cases hk : k = o <;> simp [setLease, hk]

theorem getLease_popLease_self (ls : List (String × LeaseInfo)) (o : String) :
    getLease (popLease ls o) o = none := by
  induction ls with
  | nil => simp [popLease, getLease]
  | cons kw rest ih =>
    obtain ⟨k, w⟩ := kw
    by_cases hk : k = o
    · subst hk; simpa [popLease] using ih
    · simpa [popLease, getLease, hk] using ih

theorem getLease_filter {ls : List (String × LeaseInfo)} {o : String} {v : LeaseInfo}
    (q : String × LeaseInfo → Bool) (h : getLease ls o = some v) (hq : q (o, v) = true) :
    getLease (ls.filter q) o = some v := by
  induction ls with
  | nil => simp [getLease] at h
  | cons kw rest ih =>
    obtain ⟨k, w⟩ := kw
    by_cases hk : k = o
    · subst hk
      simp [getLease] at h
      subst h
      simp [List.filter, hq, getLease]
    · simp [getLease, hk] at h
      by_cases hw : q (k, w)
      · simp [List.filter, hw, getLease, hk]
        exact ih h
      · simp [List.filter, hw]
        exact ih h

/-! ### Invariant preservation -/

theorem inv_cleanup {st : TMState} (h : Inv st) (now : ℤ) : Inv (cleanupLocked st now) := by
  simp only [cleanupLocked]
  split
  · left; rfl
  · rcases h with h | ⟨ha, hp, ip, user, pw, ht, hall⟩
    · left; simp [h]
    · by_cases hr : st.leases.filter (fun kv => decide (now < kv.2.expires_at)) = []
      · left; simpa using hr
      · right
        refine ⟨ha, hp, ip, user, pw, ht, ?_⟩
        intro kv hkv
        simp only [List.mem_filter] at hkv
        exact hall kv hkv.1

theorem inv_heartbeat {st : TMState} (h : Inv st) (cfg : TMConfig) (now : ℤ)
    (o : String) (ttlArg : Option ℤ) : Inv (heartbeat cfg now o ttlArg st) := by
  unfold heartbeat
  cases hg : getLease st.leases o with
  | none => simpa using h
  | some info =>
    simp only []
    rcases h with h | ⟨ha, hp, ip, user, pw, ht, hall⟩
    · exact absurd (getLease_mem hg) (by simp [h])
    · right
      refine ⟨ha, hp, ip, user, pw, ht, ?_⟩
      intro kv hkv
      rcases mem_setLease hkv with hkv1 | hkv1
      · exact hall kv hkv1
      · have hinfo := hall _ (getLease_mem hg)
        subst hkv1
        cases ttlArg with
        | none => simpa using hinfo
        | some t => by_cases ht0 : t = 0 <;> simp [ht0] <;> simpa using hinfo

theorem inv_release {st : TMState} (h : Inv st) (o : String) : Inv (release o st) := by
  unfold release
  cases hg : getLease st.leases o with
  | none => simpa using h
  | some info =>
    simp only []
    split
    · left; rfl
    · rcases h with h | ⟨ha, hp, ip, user, pw, ht, hall⟩
      · exact absurd (getLease_mem hg) (by simp [h])
      · right
        refine ⟨ha, hp, ip, user, pw, ht, ?_⟩
        intro kv hkv
        simp only [popLease, List.mem_filter] at hkv
        exact hall kv hkv.1

theorem inv_ensure_error {st st1 : TMState} {e : TMError} (h : Inv st)
    (cfg : TMConfig) (avail : Nat → Bool) (ip u pw : String)
    (heq : ensureController cfg avail ip u pw st = (st1, .error e)) : Inv st1 := by
  simp only [ensureController] at heq
  split at heq
  · split at heq
    · split at heq
      · rcases Prod.mk.injEq .. ▸ heq with ⟨h1, h2⟩
        subst h1
        rcases h with h | ⟨ha, hp, ip1, user1, pw1, ht, hall⟩
        · left; simpa using h
        · right
          exact ⟨ha, rfl, ip1, user1, pw1, ht, hall⟩
      · cases heq
    · cases heq
  · split at heq
    · rcases Prod.mk.injEq .. ▸ heq with ⟨h1, h2⟩
      subst h1; exact h
    · cases heq

theorem inv_ensure_ok {st st1 : TMState} {port : Nat} (h : Inv st)
    (cfg : TMConfig) (avail : Nat → Bool) (ip u pw : String)
    (heq : ensureController cfg avail ip u pw st = (st1, .ok port)) :
    st1.controller.alive = true ∧ st1.controller.listenPort = port ∧
    st1.active_port = some port ∧ st1.current_target = some (ip, u, pw) ∧
    st1.leases = st.leases ∧
    ∀ kv ∈ st.leases, kv.2.port = port ∧ kv.2.device_ip = ip ∧ kv.2.username = u := by
  simp only [ensureController] at heq
  split at heq
  case isTrue halive =>
    split at heq
    case h_1 t htg =>
      split at heq
      · cases heq
      case isFalse hmt =>
        push_neg at hmt
        rcases Prod.mk.injEq .. ▸ heq with ⟨h1, h2⟩
        cases h2
        subst h1
        refine ⟨halive, rfl, rfl, rfl, rfl, ?_⟩
        intro kv hkv
        rcases h with h | ⟨ha, hp, ip1, user1, pw1, ht, hall⟩
        · exact absurd hkv (by simp [h])
        · have ht2 : (ip1, user1, pw1) = (ip, u, pw) := by
            rw [ht] at htg
            exact hmt ▸ Option.some.injEq .. ▸ htg
          have := hall kv hkv
          rcases Prod.mk.injEq .. ▸ ht2 with ⟨e1, e23⟩
          rcases Prod.mk.injEq .. ▸ e23 with ⟨e2, e3⟩
          exact ⟨this.1, e1 ▸ this.2.1, e2 ▸ this.2.2⟩
    case h_2 htg =>
      rcases Prod.mk.injEq .. ▸ heq with ⟨h1, h2⟩
      cases h2
      subst h1
      refine ⟨halive, rfl, rfl, rfl, rfl, ?_⟩
      intro kv hkv
      rcases h with h | ⟨ha, hp, ip1, user1, pw1, ht, hall⟩
      · exact absurd hkv (by simp [h])
      · rw [ht] at htg; cases htg
  case isFalse halive =>
    split at heq
    · cases heq
    case h_2 p hsp =>
      rcases Prod.mk.injEq .. ▸ heq with ⟨h1, h2⟩
      cases h2
      subst h1
      refine ⟨rfl, rfl, rfl, rfl, rfl, ?_⟩
      intro kv hkv
      rcases h with h | ⟨ha, hp, ip1, user1, pw1, ht, hall⟩
      · exact absurd hkv (by simp [h])
      · simp only [Bool.not_eq_true] at halive
        rw [halive] at ha; cases ha

theorem inv_lease {st : TMState} (h : Inv st) (cfg : TMConfig) (avail : Nat → Bool)
    (now : ℤ) (o k ip u pw : String) (ttlArg : Option ℤ)
    (hrc : renewalConsistentB cfg (.leaseOp now o k ip u pw ttlArg avail) st = true) :
    Inv (lease cfg avail now o k ip u pw ttlArg st).1 := by
  by_cases ho : o = ""
  · simpa [lease, ho] using h
  · have hstc : Inv (cleanupLocked st now) := inv_cleanup h now
    simp only [lease]
    rw [if_neg ho]
    cases hg : getLease (cleanupLocked st now).leases o with
    | some info =>
      simp only [renewalConsistentB, hg, Bool.and_eq_true, beq_iff_eq] at hrc
      simp only []
      rcases hstc with hstc | ⟨ha, hp, ip1, user1, pw1, ht, hall⟩
      · exact absurd (getLease_mem hg) (by simp [hstc])
      · right
        refine ⟨ha, hp, ip1, user1, pw1, ht, ?_⟩
        intro kv hkv
        rcases mem_setLease hkv with hkv1 | hkv1
        · exact hall kv hkv1
        · have hinfo := hall _ (getLease_mem hg)
          subst hkv1
          exact ⟨hinfo.1, hrc.1 ▸ hinfo.2.1, hrc.2 ▸ hinfo.2.2⟩
    | none =>
      cases heq : ensureController cfg avail ip u pw (cleanupLocked st now) with
      | mk st1 res =>
        cases res with
        | error e =>
          simp only [heq]
          exact inv_ensure_error hstc cfg avail ip u pw heq
        | ok port =>
          obtain ⟨ha, hlp, hap, htg, hls, hold⟩ :=
            inv_ensure_ok hstc cfg avail ip u pw heq
          simp only [heq]
          right
          refine ⟨ha, by rw [hap, hlp], ip, u, pw, htg, ?_⟩
          intro kv hkv
          simp only [] at hkv
          rcases mem_setLease hkv with hkv1 | hkv1
          · have := hold kv (hls ▸ hkv1)
            exact ⟨this.1.trans hlp.symm, this.2.1, this.2.2⟩
          · subst hkv1
            exact ⟨hlp.symm, rfl, rfl⟩

theorem inv_applyOp {st : TMState} (h : Inv st) (cfg : TMConfig) (op : TMOp)
    (hrc : renewalConsistentB cfg op st = true) : Inv (applyOp cfg op st) := by
  cases op with
  | leaseOp now o k ip u pw ttlArg avail =>
    exact inv_lease h cfg avail now o k ip u pw ttlArg hrc
  | heartbeatOp now o ttlArg => exact inv_heartbeat h cfg now o ttlArg
  | releaseOp o => exact inv_release h o
  | sweepOp now => exact inv_cleanup h now

theorem inv_applySeq {ops : List TMOp} {st : TMState} (h : Inv st) (cfg : TMConfig)
    (hgood : GoodSeqB cfg ops st = true) : Inv (applySeq cfg ops st) := by
  induction ops generalizing st with
  | nil => simpa [applySeq] using h
  | cons op rest ih =>
    simp only [GoodSeqB, Bool.and_eq_true] at hgood
    simpa [applySeq] using ih (inv_applyOp h cfg op hgood.1) hgood.2

/-- A total-availability probe oracle, used for concrete runs. -/
def availAll : Nat → Bool := fun _ => true

/-! ### C1 -/

/-- C1 (amended): for every sequence of lease / heartbeat / release /
expiry-sweep operations from the initial state in which every `lease()`
call renewing an already-held ownerID passes that lease's own ip and
username again, a non-empty registry has a recorded current Target and
every lease shares one port and the Target's (deviceIP, username).  The
restriction is forced: the renew path of `TunnelManager.lease` overwrites
`device_ip`/`username` without checking them against the current Target
(tunnel_manager.py lines 202-208), so an unrestricted re-lease with a
different ip breaks the invariant (see the counterexample). -/
theorem tunnel_c1_theorem (cfg : TMConfig) (ops : List TMOp)
    (hgood : GoodSeqB cfg ops initState = true)
    (hne : (applySeq cfg ops initState).leases ≠ []) :
    ∃ ip user pw, (applySeq cfg ops initState).current_target = some (ip, user, pw) ∧
      ∀ kv ∈ (applySeq cfg ops initState).leases,
        ∀ kv2 ∈ (applySeq cfg ops initState).leases,
          kv.2.port = kv2.2.port ∧ kv.2.device_ip = ip ∧ kv.2.username = user := by
  have hinv := inv_applySeq (Or.inl rfl) cfg hgood
  rcases hinv with hinv | ⟨ha, hp, ip, user, pw, ht, hall⟩
  · exact absurd hinv hne
  · exact ⟨ip, user, pw, ht, fun kv hkv kv2 hkv2 =>
      ⟨(hall kv hkv).1.trans (hall kv2 hkv2).1.symm, (hall kv hkv).2.1, (hall kv hkv).2.2⟩⟩

/-- Concrete run for the C1 witness: two distinct owners lease the same
target, and the first then re-leases with the same ip and username. -/
def c1WitnessOps : List TMOp :=
  [ .leaseOp 0 "job-1" "tests" "10.0.0.5" "admin" "x" (some 60) availAll,
    .leaseOp 0 "job-2" "tests" "10.0.0.5" "admin" "x" none availAll,
    .leaseOp 1 "job-1" "tests" "10.0.0.5" "admin" "x" none availAll ]

/-- Witness for C1 on a concrete consistent sequence. -/
theorem tunnel_c1_witness :
    GoodSeqB defaultCfg c1WitnessOps initState = true ∧
    (applySeq defaultCfg c1WitnessOps initState).leases ≠ [] ∧
    ∃ ip user pw,
      (applySeq defaultCfg c1WitnessOps initState).current_target = some (ip, user, pw) ∧
      ∀ kv ∈ (applySeq defaultCfg c1WitnessOps initState).leases,
        ∀ kv2 ∈ (applySeq defaultCfg c1WitnessOps initState).leases,
          kv.2.port = kv2.2.port ∧ kv.2.device_ip = ip ∧ kv.2.username = user :=
  ⟨by decide, by decide, tunnel_c1_theorem defaultCfg c1WitnessOps (by decide) (by decide)⟩

/-- Concrete run refuting C1 as stated: owner "a" re-leases with a
different ip/username while owner "b" still holds the old target. -/
def c1BadOps : List TMOp :=
  [ .leaseOp 0 "a" "k" "1.1.1.1" "u" "p" none availAll,
    .leaseOp 0 "b" "k" "1.1.1.1" "u" "p" none availAll,
    .leaseOp 0 "a" "k" "2.2.2.2" "u2" "p" none availAll ]

/-- C1 counterexample: after the sequence `c1BadOps` (allowed by the
claim, which includes re-lease with a different ip/username) the registry
is non-empty but the leases do not all share one (deviceIP, username). -/
theorem tunnel_c1_counterexample :
    (applySeq defaultCfg c1BadOps initState).leases ≠ [] ∧
    ¬ (∀ kv ∈ (applySeq defaultCfg c1BadOps initState).leases,
         ∀ kv2 ∈ (applySeq defaultCfg c1BadOps initState).leases,
           kv.2.device_ip = kv2.2.device_ip ∧ kv.2.username = kv2.2.username) := by
  decide

/-! ### C2 -/

/-- The empty tunnel service. -/
def svc0 : SvcState := { mgr := initState, tracked := [] }

/-- State after the first tracked `reserve("device-info", ...)`. -/
def svcAfter1 : SvcState :=
  (reserve defaultCfg availAll 0 "device-info" "probe" "10.0.0.5" "admin" "x" none true svc0).1

/-- State after the second tracked `reserve("device-info", ...)` with the
same key and the same target. -/
def svcAfter2 : SvcState :=
  (reserve defaultCfg availAll 1 "device-info" "probe" "10.0.0.5" "admin" "x" none true svcAfter1).1

/-- C2: evaluating the code at the failing input.  The first tracked
reserve leaves exactly one lease; the second reserve under the same key
renews that registry entry, then `previous.release()` pops it again
(`TunnelLease.release` delegates to `TunnelManager.release` on the shared
owner id, services/tunnels.py lines 62-66), so afterwards the registry is
empty and the proxy has been torn down — not the "exactly one active
lease" the claim and E2E scenario C require. -/
theorem tunnel_c2_bug :
    svcAfter1.mgr.leases.map Prod.fst = ["device-info"] ∧
    (reserve defaultCfg availAll 1 "device-info" "probe" "10.0.0.5" "admin" "x"
        none true svcAfter1).2 = .ok { owner_id := "device-info", released := false } ∧
    svcAfter2.mgr.leases = [] ∧
    svcAfter2.mgr.controller.alive = false ∧
    svcAfter2.tracked.map Prod.fst = ["device-info"] := by
  decide

/-! ### C3 -/

/-- The sweep `cleanupLocked` is the identity when every lease is unexpired. -/
theorem cleanup_noop {st : TMState} {now : ℤ}
    (h : ∀ kv ∈ st.leases, now < kv.2.expires_at) : cleanupLocked st now = st := by
  have hf : st.leases.filter (fun kv => decide (now < kv.2.expires_at)) = st.leases :=
    List.filter_eq_self.mpr (by intro a ha; simpa using h a ha)
  simp only [cleanupLocked, hf]
  split
  case isTrue hc => exact absurd hc.2 hc.1
  case isFalse hc => rfl

/-- C3 (amended): in a state where the proxy is alive, the recorded
active port is the controller's bound port, a current Target is set, and
no lease has expired yet, a `lease()` call for a fresh ownerID with a
different target raises `ConfigurationError` and returns the state
unchanged.  The "no expired lease" restriction is forced: `lease()` runs
the expiry sweep first (tunnel_manager.py line 200), so expired leases
are dropped by the same call, and when all leases were expired the proxy
is torn down and the call then succeeds instead of raising (see the
counterexample). -/
theorem tunnel_c3_theorem (cfg : TMConfig) (avail : Nat → Bool) (now : ℤ)
    (o k ip u pw : String) (ttlArg : Option ℤ) (st : TMState)
    (t : String × String × String)
    (halive : st.controller.alive = true)
    (hport : st.active_port = some st.controller.listenPort)
    (htgt : st.current_target = some t)
    (hdiff : t ≠ (ip, u, pw))
    (hfresh : getLease st.leases o = none)
    (ho : o ≠ "")
    (hunexp : ∀ kv ∈ st.leases, now < kv.2.expires_at) :
    lease cfg avail now o k ip u pw ttlArg st = (st, .error .configurationError) := by
  have hcl : cleanupLocked st now = st := cleanup_noop hunexp
  have hst1 : ({ st with active_port := some st.controller.listenPort } : TMState) = st := by
    rw [← hport]
  have hens : ensureController cfg avail ip u pw st = (st, .error .configurationError) := by
    rw [ensureController, if_pos halive]
    simp only []
    rw [htgt]
    simp only []
    rw [if_pos hdiff, ← htgt, hst1]
  simp only [lease, hcl]
  rw [if_neg ho]
  simp only [hfresh, hens]

/-- The lease held in the C3 witness state. -/
def c3WitnessInfo : LeaseInfo :=
  { owner_id := "job-1", owner_kind := "tests", port := 1161, created_at := 0,
    expires_at := 60, ttl := 60, device_ip := "10.0.0.5", username := "admin",
    last_heartbeat := 0 }

/-- Concrete state for the C3 witness: one unexpired lease on target
("10.0.0.5", "admin", "x"), proxy alive on port 1161. -/
def c3WitnessState : TMState :=
  { controller := { alive := true, listenPort := 1161, startCount := 1, closeCount := 0 },
    leases := [("job-1", c3WitnessInfo)],
    active_port := some 1161, current_target := some ("10.0.0.5", "admin", "x") }

/-- Witness for C3 at a concrete conflicting request. -/
theorem tunnel_c3_witness :
    lease defaultCfg availAll 10 "job-2" "tests" "10.0.0.9" "admin" "x" none c3WitnessState
      = (c3WitnessState, .error .configurationError) :=
  tunnel_c3_theorem defaultCfg availAll 10 "job-2" "tests" "10.0.0.9" "admin" "x" none
    c3WitnessState ("10.0.0.5", "admin", "x") (by decide) (by decide) (by decide)
    (by decide) (by decide) (by decide) (by decide)

/-- The already-expired lease held in the C3 counterexample state. -/
def c3BadInfo : LeaseInfo :=
  { owner_id := "old", owner_kind := "tests", port := 1161, created_at := 0,
    expires_at := 5, ttl := 5, device_ip := "10.0.0.5", username := "admin",
    last_heartbeat := 0 }

/-- Concrete state refuting C3 as stated: proxy alive with a current
Target, but the only lease is already expired. -/
def c3BadState : TMState :=
  { controller := { alive := true, listenPort := 1161, startCount := 1, closeCount := 0 },
    leases := [("old", c3BadInfo)],
    active_port := some 1161, current_target := some ("10.0.0.5", "admin", "x") }

/-- C3 counterexample: the proxy is alive with a current Target, the
request targets a different device, yet `lease()` does not raise
`ConfigurationError` — the leading expiry sweep drops the expired lease,
tears the proxy down and the call succeeds, changing the registry. -/
theorem tunnel_c3_counterexample :
    c3BadState.controller.alive = true ∧
    c3BadState.current_target = some ("10.0.0.5", "admin", "x") ∧
    getLease c3BadState.leases "new" = none ∧
    (lease defaultCfg availAll 10 "new" "tests" "10.0.0.9" "admin" "y" none c3BadState).2
      = .ok "new" ∧
    (lease defaultCfg availAll 10 "new" "tests" "10.0.0.9" "admin" "y" none
      c3BadState).1.leases ≠ c3BadState.leases := by
  decide

/-! ### C4 -/

theorem selectPort_ok_of_avail {ports : List Nat} {avail : Nat → Bool}
    (h : ∃ p ∈ ports, avail p = true) (active : Option Nat) :
    ∃ q, selectPort ports avail active = .ok q := by
  induction ports with
  | nil => simp at h
  | cons p rest ih =>
    by_cases ha : active = some p
    · exact ⟨p, by simp [selectPort, ha]⟩
    · by_cases hv : avail p = true
      · exact ⟨p, by simp [selectPort, ha, hv]⟩
      · rcases h with ⟨q, hq, havq⟩
        rcases List.mem_cons.mp hq with rfl | hq2
        · exact absurd havq hv
        · obtain ⟨q2, hq2ok⟩ := ih ⟨q, hq2, havq⟩
          exact ⟨q2, by simp [selectPort, ha, hv, hq2ok]⟩

/-- On an empty registry with a dead proxy, `lease()` succeeds as soon as
some configured port probes available. -/
theorem lease_ok_on_empty_dead {cfg : TMConfig} {avail : Nat → Bool} {st : TMState}
    (now : ℤ) (o k ip u pw : String) (ttlArg : Option ℤ)
    (hleases : st.leases = []) (hdead : st.controller.alive = false) (ho : o ≠ "")
    (hav : ∃ p ∈ cfg.ports, avail p = true) :
    (lease cfg avail now o k ip u pw ttlArg st).2 = .ok o := by
  have hcl : cleanupLocked st now = st := by
    simp only [cleanupLocked, hleases, List.filter_nil]
    rw [if_neg (by simp)]
    rw [← hleases]
  obtain ⟨q, hq⟩ := selectPort_ok_of_avail hav st.active_port
  have hens : ensureController cfg avail ip u pw st
      = ({ st with controller := st.controller.start q,
                   active_port := some q,
                   current_target := some (ip, u, pw) }, .ok q) := by
    rw [ensureController, if_neg (by simp [hdead]), hq]
  simp only [lease, hcl]
  rw [if_neg ho]
  simp only [hleases, getLease, hens]

/-- C4: whenever removing a lease empties the registry — by `release()`
or by the expiry sweep — the controller's `close()` is invoked and the
active port and current Target are reset in that same operation, and a
subsequent `lease()` for any (in particular a different) Target succeeds
rather than raising a stale `ConfigurationError`, as long as the owner id
is non-empty and some configured port probes available. -/
theorem tunnel_c4_theorem (cfg : TMConfig) (st : TMState) (o : String)
    (now now2 : ℤ) (avail : Nat → Bool) (o2 k2 ip2 u2 pw2 : String) (ttl2 : Option ℤ)
    (ho2 : o2 ≠ "") (hav : ∃ p ∈ cfg.ports, avail p = true) :
    ((∃ info, getLease st.leases o = some info) → popLease st.leases o = [] →
      (release o st).controller.closeCount = st.controller.closeCount + 1 ∧
      (release o st).controller.alive = false ∧
      (release o st).active_port = none ∧
      (release o st).current_target = none ∧
      (lease cfg avail now2 o2 k2 ip2 u2 pw2 ttl2 (release o st)).2 = .ok o2) ∧
    (st.leases ≠ [] → st.leases.filter (fun kv => decide (now < kv.2.expires_at)) = [] →
      (cleanupLocked st now).controller.closeCount = st.controller.closeCount + 1 ∧
      (cleanupLocked st now).controller.alive = false ∧
      (cleanupLocked st now).active_port = none ∧
      (cleanupLocked st now).current_target = none ∧
      (lease cfg avail now2 o2 k2 ip2 u2 pw2 ttl2 (cleanupLocked st now)).2 = .ok o2) := by
  constructor
  · rintro ⟨info, hget⟩ hpop
    have hrel : release o st
        = { st with leases := [], controller := st.controller.close,
                    active_port := none, current_target := none } := by
      simp only [release, hget]
      rw [if_pos hpop]
    rw [hrel]
    exact ⟨rfl, rfl, rfl, rfl,
      lease_ok_on_empty_dead now2 o2 k2 ip2 u2 pw2 ttl2 rfl rfl ho2 hav⟩
  · intro hne hempty
    have hcl : cleanupLocked st now
        = { st with leases := [], controller := st.controller.close,
                    active_port := none, current_target := none } := by
      simp only [cleanupLocked, hempty]
      rw [if_pos ⟨hne, trivial⟩]
    rw [hcl]
    exact ⟨rfl, rfl, rfl, rfl,
      lease_ok_on_empty_dead now2 o2 k2 ip2 u2 pw2 ttl2 rfl rfl ho2 hav⟩

/-- Witness for C4: the single lease of `c3WitnessState` is released (or
fully expired and swept), tearing the tunnel down, after which a lease
for the different target "10.0.0.9" succeeds. -/
theorem tunnel_c4_witness :
    ((release "job-1" c3WitnessState).controller.closeCount
        = c3WitnessState.controller.closeCount + 1 ∧
      (release "job-1" c3WitnessState).controller.alive = false ∧
      (release "job-1" c3WitnessState).active_port = none ∧
      (release "job-1" c3WitnessState).current_target = none ∧
      (lease defaultCfg availAll 20 "job-2" "tests" "10.0.0.9" "admin" "y" none
        (release "job-1" c3WitnessState)).2 = .ok "job-2") ∧
    ((cleanupLocked c3WitnessState 100).controller.closeCount
        = c3WitnessState.controller.closeCount + 1 ∧
      (cleanupLocked c3WitnessState 100).controller.alive = false ∧
      (cleanupLocked c3WitnessState 100).active_port = none ∧
      (cleanupLocked c3WitnessState 100).current_target = none ∧
      (lease defaultCfg availAll 101 "job-2" "tests" "10.0.0.9" "admin" "y" none
        (cleanupLocked c3WitnessState 100)).2 = .ok "job-2") := by
  have h := tunnel_c4_theorem defaultCfg c3WitnessState "job-1" 100 20 availAll
    "job-2" "tests" "10.0.0.9" "admin" "y" none (by decide)
    ⟨1161, by decide, rfl⟩
  have h2 := tunnel_c4_theorem defaultCfg c3WitnessState "job-1" 100 101 availAll
    "job-2" "tests" "10.0.0.9" "admin" "y" none (by decide)
    ⟨1161, by decide, rfl⟩
  exact ⟨h.1 ⟨c3WitnessInfo, by decide⟩ (by decide), h2.2 (by decide) (by decide)⟩

/-! ### C5 -/

/-- Releasing an owner with no lease in the registry changes nothing. -/
theorem release_noop {o : String} {st : TMState} (h : getLease st.leases o = none) :
    release o st = st := by
  simp [release, h]

/-- After `release o`, owner `o` has no lease. -/
theorem getLease_release_self (o : String) (st : TMState) :
    getLease (release o st).leases o = none := by
  unfold release
  cases hg : getLease st.leases o with
  | none => exact hg
  | some info =>
    simp only []
    split
    · simp [getLease]
    · exact getLease_popLease_self st.leases o

/-- C5: `release(ownerID)` is idempotent — calling it twice in a row
yields exactly the state of calling it once, for every owner id and every
manager state; in particular the second call never raises (the embedded
`release` is a total function) and affects no other lease and no
proxy/Target state. -/
theorem tunnel_c5_theorem (o : String) (st : TMState) :
    release o (release o st) = release o st :=
  release_noop (getLease_release_self o st)

/-! ### C6 -/

/-- C6 (amended): re-`lease()`-ing an already-held, not-yet-expired
ownerID returns ok, leaves the controller untouched (in particular starts
no second proxy process), updates the lease entry in place (the registry
keys are unchanged, so no duplicate appears), and sets `expiresAt` to
`now + ttl` — which strictly increases it exactly when `now + ttl`
exceeds the previous `expiresAt` (e.g. when the ttl is unchanged and time
has advanced).  The claim's "strictly increases … for every requested
ttl" is dropped: `expires_at` is overwritten, not maxed, so a small ttl
strictly decreases it (see the counterexample). -/
theorem tunnel_c6_theorem (cfg : TMConfig) (avail : Nat → Bool) (now : ℤ)
    (o k ip u pw : String) (ttlArg : Option ℤ) (st : TMState) (info : LeaseInfo)
    (ho : o ≠ "")
    (hget : getLease st.leases o = some info)
    (hunexp : now < info.expires_at) :
    (lease cfg avail now o k ip u pw ttlArg st).2 = .ok o ∧
    (lease cfg avail now o k ip u pw ttlArg st).1.controller = st.controller ∧
    (lease cfg avail now o k ip u pw ttlArg st).1.leases.map Prod.fst
      = (cleanupLocked st now).leases.map Prod.fst ∧
    ∃ info1, getLease (lease cfg avail now o k ip u pw ttlArg st).1.leases o = some info1 ∧
      info1.expires_at = now + ttlOrDefault cfg ttlArg ∧
      (info.expires_at < now + ttlOrDefault cfg ttlArg →
        info.expires_at < info1.expires_at) := by
  have hgetf : getLease (st.leases.filter (fun kv => decide (now < kv.2.expires_at))) o
      = some info :=
    getLease_filter _ hget (by simpa using hunexp)
  have hne : st.leases.filter (fun kv => decide (now < kv.2.expires_at)) ≠ [] := by
    intro hnil
    rw [hnil] at hgetf
    simp [getLease] at hgetf
  have hcl : cleanupLocked st now
      = { st with leases := st.leases.filter (fun kv => decide (now < kv.2.expires_at)) } := by
    simp only [cleanupLocked]
    rw [if_neg (by simp [hne])]
  have hclget : getLease (cleanupLocked st now).leases o = some info := by
    rw [hcl]; exact hgetf
  simp only [lease]
  rw [if_neg ho]
  simp only [hclget]
  refine ⟨trivial, by rw [hcl], map_fst_setLease _ hclget, ?_⟩
  refine ⟨_, getLease_setLease_self (cleanupLocked st now).leases o _, rfl, ?_⟩
  intro hlt
  exact hlt

/-- Witness for C6: "job-1" of `c3WitnessState` (expires at 60) is
re-leased at time 10 with ttl 600. -/
theorem tunnel_c6_witness :
    (lease defaultCfg availAll 10 "job-1" "tests" "10.0.0.5" "admin" "x" (some 600)
      c3WitnessState).2 = .ok "job-1" ∧
    (lease defaultCfg availAll 10 "job-1" "tests" "10.0.0.5" "admin" "x" (some 600)
      c3WitnessState).1.controller = c3WitnessState.controller ∧
    (lease defaultCfg availAll 10 "job-1" "tests" "10.0.0.5" "admin" "x" (some 600)
      c3WitnessState).1.leases.map Prod.fst
      = (cleanupLocked c3WitnessState 10).leases.map Prod.fst ∧
    ∃ info1, getLease (lease defaultCfg availAll 10 "job-1" "tests" "10.0.0.5" "admin" "x"
        (some 600) c3WitnessState).1.leases "job-1" = some info1 ∧
      info1.expires_at = 10 + ttlOrDefault defaultCfg (some 600) ∧
      (c3WitnessInfo.expires_at < 10 + ttlOrDefault defaultCfg (some 600) →
        c3WitnessInfo.expires_at < info1.expires_at) :=
  tunnel_c6_theorem defaultCfg availAll 10 "job-1" "tests" "10.0.0.5" "admin" "x"
    (some 600) c3WitnessState c3WitnessInfo (by decide) (by decide) (by decide)

/-- State after leasing "a" at time 0 with ttl 600: expires at 600. -/
def c6State1 : TMState :=
  (lease defaultCfg availAll 0 "a" "k" "10.0.0.5" "admin" "x" (some 600) initState).1

/-- State after re-leasing "a" at time 1 with ttl 1. -/
def c6State2 : TMState :=
  (lease defaultCfg availAll 1 "a" "k" "10.0.0.5" "admin" "x" (some 1) c6State1).1

/-- C6 counterexample: a re-lease of the held, unexpired owner "a" with
the same Target and requested ttl 1 moves `expiresAt` from 600 down to 2 —
it does not strictly increase for every requested ttl. -/
theorem tunnel_c6_counterexample :
    (getLease c6State1.leases "a").map LeaseInfo.expires_at = some 600 ∧
    (lease defaultCfg availAll 1 "a" "k" "10.0.0.5" "admin" "x" (some 1) c6State1).2
      = .ok "a" ∧
    c6State2.controller.startCount = c6State1.controller.startCount ∧
    (getLease c6State2.leases "a").map LeaseInfo.expires_at = some 2 ∧
    (2 : ℤ) < 600 := by
  decide

/-! ### C7 -/

/-- Port selection is exactly "first candidate that equals the active port
or probes available". -/
theorem selectPort_eq_find (ports : List Nat) (avail : Nat → Bool) (active : Option Nat) :
    selectPort ports avail active =
      match ports.find? (fun p => decide (active = some p) || avail p) with
      | some q => Except.ok q
      | none => Except.error TMError.portsBusy := by
  induction ports with
  | nil => rfl
  | cons p rest ih =>
    by_cases ha : active = some p
    · rw [selectPort, if_pos ha]
      rw [List.find?_cons_of_pos _ (by simp [ha])]
    · by_cases hv : avail p = true
      · rw [selectPort, if_neg ha, if_pos hv]
        rw [List.find?_cons_of_pos _ (by simp [hv])]
      · rw [selectPort, if_neg ha, if_neg hv]
        rw [List.find?_cons_of_neg _ (by simp [ha, hv])]
        exact ih

/-- The leases an erroring `ensureController` leaves behind are the
leases it was given. -/
theorem ensure_error_leases {st st1 : TMState} {e : TMError}
    (cfg : TMConfig) (avail : Nat → Bool) (ip u pw : String)
    (heq : ensureController cfg avail ip u pw st = (st1, .error e)) :
    st1.leases = st.leases := by
  simp only [ensureController] at heq
  split at heq
  · split at heq
    · split at heq
      · rcases Prod.mk.injEq .. ▸ heq with ⟨h1, h2⟩
        subst h1; rfl
      · cases heq
    · cases heq
  · split at heq
    · rcases Prod.mk.injEq .. ▸ heq with ⟨h1, h2⟩
      subst h1; rfl
    · cases heq

/-- A `lease()` call that fails with `PortsBusyError` leaves the registry
exactly as the leading expiry sweep left it: no lease is inserted. -/
theorem lease_portsBusy_leases {cfg : TMConfig} {avail : Nat → Bool} {now : ℤ}
    {o k ip u pw : String} {ttlArg : Option ℤ} {st : TMState}
    (h : (lease cfg avail now o k ip u pw ttlArg st).2 = .error .portsBusy) :
    (lease cfg avail now o k ip u pw ttlArg st).1.leases
      = (cleanupLocked st now).leases := by
  by_cases ho : o = ""
  · rw [lease] at h
    rw [if_pos ho] at h
    simp at h
  · simp only [lease] at h ⊢
    rw [if_neg ho] at h ⊢
    cases hg : getLease (cleanupLocked st now).leases o with
    | some info =>
      simp only [hg] at h
      simp at h
    | none =>
      simp only [hg] at h ⊢
      cases heq : ensureController cfg avail ip u pw (cleanupLocked st now) with
      | mk st1 res =>
        simp only [heq] at h ⊢
        cases res with
        | ok port => simp at h
        | error e =>
          simp only [] at h ⊢
          exact ensure_error_leases cfg avail ip u pw heq

/-- Cleanup of an empty registry leaves it empty. -/
theorem cleanup_empty {st : TMState} (h : st.leases = []) (now : ℤ) :
    (cleanupLocked st now).leases = [] := by
  simp only [cleanupLocked, h, List.filter_nil]
  split <;> rfl

/-- C7 (amended): port selection returns the first candidate in the
configured list that either equals the already-active port or passes the
transient bind probe, and raises `PortsBusyError` when no candidate
qualifies; a `lease()` call that fails with `PortsBusyError` inserts no
lease — the registry is exactly what the leading expiry sweep left, so an
empty registry remains empty.  The claim's "whenever the proxy already
has an active port, selecting a port returns that port" is weakened: the
active port only wins over candidates listed after it; an earlier
candidate that probes available is returned instead (see the
counterexample). -/
theorem tunnel_c7_theorem (ports : List Nat) (avail : Nat → Bool) (active : Option Nat)
    (cfg : TMConfig) (avail2 : Nat → Bool) (now : ℤ) (o k ip u pw : String)
    (ttlArg : Option ℤ) (st : TMState) :
    (selectPort ports avail active =
      match ports.find? (fun p => decide (active = some p) || avail p) with
      | some q => Except.ok q
      | none => Except.error TMError.portsBusy) ∧
    ((lease cfg avail2 now o k ip u pw ttlArg st).2 = .error .portsBusy →
      (lease cfg avail2 now o k ip u pw ttlArg st).1.leases
        = (cleanupLocked st now).leases ∧
      (st.leases = [] → (lease cfg avail2 now o k ip u pw ttlArg st).1.leases = [])) := by
  refine ⟨selectPort_eq_find ports avail active, fun h => ⟨lease_portsBusy_leases h, ?_⟩⟩
  intro hempty
  rw [lease_portsBusy_leases h]
  exact cleanup_empty hempty now

/-- Witness for C7, E2E scenario B: pool [1161, 21161] with 1161
externally occupied selects 21161; with both occupied, `lease()` on an
empty registry fails with `PortsBusyError` and the registry stays empty. -/
theorem tunnel_c7_witness :
    (selectPort [1161, 21161] (fun p => decide (p = 21161)) none =
      match [1161, 21161].find? (fun p => decide ((none : Option Nat) = some p)
          || decide (p = 21161)) with
      | some q => Except.ok q
      | none => Except.error TMError.portsBusy) ∧
    ((lease { defaultCfg with ports := [1161, 21161] } (fun _ => false) 0 "job-1" "tests"
        "10.0.0.5" "admin" "x" none initState).2 = .error .portsBusy →
      (lease { defaultCfg with ports := [1161, 21161] } (fun _ => false) 0 "job-1" "tests"
        "10.0.0.5" "admin" "x" none initState).1.leases
        = (cleanupLocked initState 0).leases ∧
      (initState.leases = [] →
        (lease { defaultCfg with ports := [1161, 21161] } (fun _ => false) 0 "job-1" "tests"
          "10.0.0.5" "admin" "x" none initState).1.leases = [])) :=
  tunnel_c7_theorem [1161, 21161] (fun p => decide (p = 21161)) none
    { defaultCfg with ports := [1161, 21161] } (fun _ => false) 0 "job-1" "tests"
    "10.0.0.5" "admin" "x" none initState

/-- C7 counterexample: the proxy's active port is 21161, yet selection
returns 1161 because the earlier candidate probes available — not the
active port the claim promises. -/
theorem tunnel_c7_counterexample :
    selectPort [1161, 21161] (fun p => decide (p = 1161)) (some 21161) = .ok 1161 ∧
    (1161 : Nat) ≠ 21161 := by
  decide

/-! ### C8 -/

/-- C8: `heartbeat(ownerID, ttl?)` for an owner with a lease of non-zero
stored ttl sets `expires_at` to `now` plus the (possibly updated) ttl and
`last_heartbeat` to `now`, updating the entry in place and touching
nothing else; for an unknown owner it returns the state unchanged (the
embedded `heartbeat` is a total function: a silent no-op). -/
theorem tunnel_c8_theorem (cfg : TMConfig) (now : ℤ) (o : String) (ttlArg : Option ℤ)
    (st : TMState) :
    (getLease st.leases o = none → heartbeat cfg now o ttlArg st = st) ∧
    (∀ info, getLease st.leases o = some info → info.ttl ≠ 0 →
      ∃ info1, getLease (heartbeat cfg now o ttlArg st).leases o = some info1 ∧
        info1.last_heartbeat = now ∧
        ((ttlArg = none ∨ ttlArg = some 0) →
          info1.ttl = info.ttl ∧ info1.expires_at = now + info.ttl) ∧
        (∀ t, ttlArg = some t → t ≠ 0 →
          info1.ttl = t ∧ info1.expires_at = now + t) ∧
        (heartbeat cfg now o ttlArg st).leases.map Prod.fst = st.leases.map Prod.fst ∧
        (heartbeat cfg now o ttlArg st).controller = st.controller ∧
        (heartbeat cfg now o ttlArg st).active_port = st.active_port ∧
        (heartbeat cfg now o ttlArg st).current_target = st.current_target) := by
  constructor
  · intro h
    simp [heartbeat, h]
  · intro info hg htl
    rcases ttlArg with _ | t
    · have hhb : heartbeat cfg now o none st
          = { st with leases := (setLease st.leases o
              { info with expires_at := now + info.ttl, last_heartbeat := now }) } := by
        simp only [heartbeat, hg]
        rw [if_neg htl]
      rw [hhb]
      refine ⟨_, getLease_setLease_self .., rfl, fun _ => ⟨rfl, rfl⟩, ?_,
        map_fst_setLease _ hg, rfl, rfl, rfl⟩
      intro t ht'
      cases ht'
    · by_cases ht0 : t = 0
      · subst ht0
        have hhb : heartbeat cfg now o (some 0) st
            = { st with leases := (setLease st.leases o
                { info with expires_at := now + info.ttl, last_heartbeat := now }) } := by
          simp [heartbeat, hg, if_neg htl]
        rw [hhb]
        refine ⟨_, getLease_setLease_self .., rfl, fun _ => ⟨rfl, rfl⟩, ?_,
          map_fst_setLease _ hg, rfl, rfl, rfl⟩
        intro t' ht' ht'0
        injection ht' with ht'
        exact absurd ht'.symm ht'0
      · have hhb : heartbeat cfg now o (some t) st
            = { st with leases := (setLease st.leases o
                { info with ttl := t, expires_at := now + t, last_heartbeat := now }) } := by
          simp [heartbeat, hg, ht0]
        rw [hhb]
        refine ⟨_, getLease_setLease_self .., rfl, ?_, ?_,
          map_fst_setLease _ hg, rfl, rfl, rfl⟩
        · rintro (h | h)
          · cases h
          · injection h with h
            exact absurd h ht0
        · intro t' ht' _
          injection ht' with ht'
          subst ht'
          exact ⟨rfl, rfl⟩

/-- Witness for C8: a heartbeat for an unknown owner is a no-op, and a
heartbeat with ttl 7 at time 3 moves "job-1"'s expiry to 10 and its
lastHeartbeat to 3. -/
theorem tunnel_c8_witness :
    heartbeat defaultCfg 3 "nobody" (some 7) c3WitnessState = c3WitnessState ∧
    ∃ info1, getLease (heartbeat defaultCfg 3 "job-1" (some 7) c3WitnessState).leases
        "job-1" = some info1 ∧
      info1.last_heartbeat = 3 ∧
      ((some (7 : ℤ) = none ∨ some (7 : ℤ) = some 0) →
        info1.ttl = c3WitnessInfo.ttl ∧ info1.expires_at = 3 + c3WitnessInfo.ttl) ∧
      (∀ t, some (7 : ℤ) = some t → t ≠ 0 →
        info1.ttl = t ∧ info1.expires_at = 3 + t) ∧
      (heartbeat defaultCfg 3 "job-1" (some 7) c3WitnessState).leases.map Prod.fst
        = c3WitnessState.leases.map Prod.fst ∧
      (heartbeat defaultCfg 3 "job-1" (some 7) c3WitnessState).controller
        = c3WitnessState.controller ∧
      (heartbeat defaultCfg 3 "job-1" (some 7) c3WitnessState).active_port
        = c3WitnessState.active_port ∧
      (heartbeat defaultCfg 3 "job-1" (some 7) c3WitnessState).current_target
        = c3WitnessState.current_target :=
  ⟨(tunnel_c8_theorem defaultCfg 3 "nobody" (some 7) c3WitnessState).1 (by decide),
   (tunnel_c8_theorem defaultCfg 3 "job-1" (some 7) c3WitnessState).2
     c3WitnessInfo (by decide) (by decide)⟩

/-! ### C9 -/

/-- C9 (amended): an explicitly supplied port list that is empty raises
at `TunnelManager` construction, and the config parser `_parse_ports`
rejects empty input, input normalising to zero entries (blank strings),
and any value outside 1–65535; but an out-of-range value does NOT fail at
`TunnelManager` construction — `_normalise_ports` only de-duplicates and
checks non-emptiness, so an explicitly supplied out-of-range list such as
[70000] is accepted (see the counterexample). -/
theorem tunnel_c9_theorem :
    normalisePorts none = .ok [1161] ∧
    normalisePorts (some []) = .error (.managerError "no ports configured for TunnelManager") ∧
    normalisePorts (some [1161, 1161, 21161]) = .ok [1161, 21161] ∧
    parsePorts [] = .error "port list cannot be empty" ∧
    parsePorts [.str "  ", .str ""] = .error "port list cannot be empty" ∧
    parsePorts [.int 70000] = .error "port out of range" ∧
    parsePorts [.int 0] = .error "port out of range" ∧
    parsePorts [.str "70000"] = .error "port out of range" ∧
    parsePorts [.str "12x"] = .error "invalid port value" ∧
    parsePorts [.str " 1161 ", .int 1161, .int 21161] = .ok [1161, 21161] ∧
    normalisePorts (some [70000]) = .ok [70000] := by
  decide

/-- C9 counterexample: 70000 lies outside 1–65535, yet constructing the
manager's port pool from the explicitly supplied list [70000] succeeds
(`_normalise_ports` performs no range check), contradicting "a list
containing a value outside the range 1-65535 likewise fails at
construction rather than being accepted". -/
theorem tunnel_c9_counterexample :
    normalisePorts (some [70000]) = .ok [70000] ∧ 65535 < 70000 := by
  decide

/-! ### C10 -/

/-- C10: a falsy ttl behaves exactly like an omitted one.  `lease()` with
`ttl = 0` equals `lease()` with no ttl for every state and configuration,
`heartbeat()` with `ttl = 0` equals `heartbeat()` with no ttl (keeping the
stored ttl), and under the backend's default configuration the effective
ttl of both calls is the manager-wide default of 600 seconds. -/
theorem tunnel_c10_theorem (cfg : TMConfig) (avail : Nat → Bool) (now : ℤ)
    (o k ip u pw : String) (st : TMState) :
    lease cfg avail now o k ip u pw (some 0) st = lease cfg avail now o k ip u pw none st ∧
    heartbeat cfg now o (some 0) st = heartbeat cfg now o none st ∧
    ttlOrDefault defaultCfg (some 0) = 600 ∧
    ttlOrDefault defaultCfg none = 600 := by
  have ht : ttlOrDefault cfg (some 0) = ttlOrDefault cfg none := by
    simp [ttlOrDefault]
  refine ⟨?_, ?_, by decide, by decide⟩
  · simp only [lease, ht]
  · simp [heartbeat]

end STWeb
